import Mathlib

/-!
Shallow embedding of the Availability & Booking Engine of the barber-shop
scheduling backend (`booking_manager.py`), together with theorems settling
the specification claims about it.

Modelling conventions:
* Times of day are natural numbers counting minutes since midnight
  (Python `time` objects compared on the same date compare exactly like
  these numbers; `datetime.combine(d, t1) <= datetime.combine(d, t2)`
  iff `t1 <= t2`).
* Calendar dates are natural numbers: the proleptic Gregorian ordinal used
  by Python (`date.toordinal`), where ordinal 1 is Monday 0001-01-01 and
  adding one day adds one.  `strftime("%a")` is modelled by `dayAbbrev`.
* The SQLAlchemy session is modelled as an explicit record of tables
  (`DB`); a committed write is a returned, updated `DB`.  Raised
  `ValueError`s become `Except.error` with the same message string.
* Only the columns the engine reads or writes are modelled; unused columns
  (emails, prices, created_at, ...) are omitted.
-/

namespace BarberShop

/-- Rows of the `employees` table, restricted to the columns the engine uses. -/
structure Employee where
  id : Nat
  shop_id : Nat
  name : String
  working_days : String
  start_time : Nat
  end_time : Nat
  is_active : Bool
deriving Repr, DecidableEq

/-- Rows of the `customers` table, restricted to the columns the engine uses. -/
structure Customer where
  id : Nat
  name : String
  phone : String
deriving Repr, DecidableEq

/-- Rows of the `services` table, restricted to the columns the engine uses. -/
structure Service where
  id : Nat
  duration_minutes : Nat
deriving Repr, DecidableEq

/-- Rows of the `appointments` table, restricted to the columns the engine uses. -/
structure Appointment where
  shop_id : Nat
  employee_id : Nat
  customer_id : Nat
  service_id : Option Nat
  appointment_date : Nat
  start_time : Nat
  end_time : Nat
  status : String
  notes : String
deriving Repr, DecidableEq

/-- The relational store seen by the engine.  `next_customer_id` models the
autoincrement primary key of the `customers` table. -/
structure DB where
  customers : List Customer
  next_customer_id : Nat
  employees : List Employee
  services : List Service
  appointments : List Appointment
deriving Repr

/-- Python `date.strftime("%a")` in the C locale, with the date given as its
proleptic Gregorian ordinal (ordinal 1, i.e. 0001-01-01, is a Monday). -/
def dayAbbrev (d : Nat) : String :=
  match (d + 6) % 7 with
  | 0 => "Mon"
  | 1 => "Tue"
  | 2 => "Wed"
  | 3 => "Thu"
  | 4 => "Fri"
  | 5 => "Sat"
  | _ => "Sun"

/-- Helper for `splitComma` walking the character list with an accumulator
for the current token. -/
def splitCommaAux : List Char → List Char → List (List Char)
  | [], acc => [acc]
  | c :: rest, acc =>
    if c = ',' then acc :: splitCommaAux rest []
    else splitCommaAux rest (acc ++ [c])

/-- Python `s.split(",")`: split a string at every comma (empty tokens are
kept, and the result is never empty). -/
def splitComma (s : String) : List String :=
  (splitCommaAux s.data []).map (fun cs => String.mk cs)

/-- Translation of `register_customer` (booking_manager.py lines 59-70): look the customer
up by phone number; if present return it, otherwise insert a new row.
Returns the updated store and the row. -/
def register_customer (db : DB) (name phone : String) : DB × Customer :=
  match db.customers.find? (fun c => c.phone == phone) with
  | some customer => (db, customer)
  | none =>
    let customer : Customer := { id := db.next_customer_id, name := name, phone := phone }
    ({ db with
        customers := db.customers ++ [customer],
        next_customer_id := db.next_customer_id + 1 },
      customer)

/-- The slot-availability test of the generation loop (lines 105-114): a
candidate `[current, slotEnd)` is free iff for every appointment in the
list, `slotEnd <= appt.start_time` or `current >= appt.end_time`. -/
def slotFree (current slotEnd : Nat) (appts : List Appointment) : Bool :=
  appts.all (fun a => decide (slotEnd ≤ a.start_time) || decide (a.end_time ≤ current))

/-- The `while current_time + slot_duration <= end_datetime` loop of
`get_employee_availability` (lines 96-124), made structural with explicit
fuel; each iteration emits the 30-minute candidate starting at `current`
when it is free and then advances by 30 minutes. -/
def slotLoopFuel : Nat → Nat → Nat → List Appointment → List (Nat × Nat)
  | 0, _, _, _ => []
  | fuel + 1, current, end_dt, appts =>
    if current + 30 ≤ end_dt then
      (if slotFree current (current + 30) appts then [(current, current + 30)] else []) ++
        slotLoopFuel fuel (current + 30) end_dt appts
    else []

/-- The slot-generation loop with enough fuel to run to completion: the loop
advances `current` by 30 each step, so `end_dt + 1 - start_t` steps always
suffice. -/
def time_slots (start_t end_dt : Nat) (appts : List Appointment) : List (Nat × Nat) :=
  slotLoopFuel (end_dt + 1 - start_t) start_t end_dt appts

/-- Translation of `get_employee_availability` (lines 72-125): look the employee up; if
absent, or if the date's weekday abbreviation is not among the employee's
comma-separated working days, return the empty list; otherwise generate the
30-minute slots of the working window that are free of every non-cancelled
appointment of that employee on that date. -/
def get_employee_availability (db : DB) (employee_id : Nat) (d : Nat) : List (Nat × Nat) :=
  match db.employees.find? (fun e => e.id == employee_id) with
  | none => []
  | some employee =>
    if (splitComma employee.working_days).contains (dayAbbrev d) then
      let appts := db.appointments.filter (fun a =>
        a.employee_id == employee_id && a.appointment_date == d && a.status != "cancelled")
      time_slots employee.start_time employee.end_time appts
    else []

/-- Duration resolution of `book_appointment` (lines 144-148): default 30
minutes; with a service id, the service row's `duration_minutes` when the
lookup hits, 30 otherwise. -/
def resolve_duration (services : List Service) (service_id : Option Nat) : Nat :=
  match service_id with
  | none => 30
  | some sid =>
    match services.find? (fun s => s.id == sid) with
    | none => 30
    | some service => service.duration_minutes

/-- The conflict predicate of `book_appointment`'s availability query
(lines 154-166): same employee, same date, status not `cancelled`, and
`(appt.start <= start AND appt.end > start) OR
 (appt.start < end AND appt.end >= end)`. -/
def conflicts_with (employee_id apt_date start_t end_t : Nat) (a : Appointment) : Bool :=
  a.employee_id == employee_id && a.appointment_date == apt_date &&
    a.status != "cancelled" &&
    ((decide (a.start_time ≤ start_t) && decide (start_t < a.end_time)) ||
      (decide (a.start_time < end_t) && decide (end_t ≤ a.end_time)))

/-- Translation of `book_appointment` (lines 127-186).  The customer upsert happens (and
commits) first; then the employee lookup, the duration resolution, the
end-time computation (`datetime + timedelta` truncated back to a time of
day, i.e. modulo 1440 minutes), the conflict query, and the insert.
Failures return the raised message; the store returned alongside an error
retains the committed customer upsert, as the session does in the source. -/
def book_appointment (db : DB) (employee_id : Nat) (customer_phone customer_name : String)
    (appointment_date : Nat) (start_time : Nat) (service_id : Option Nat)
    (notes : String) : DB × Except String Appointment :=
  let res := register_customer db customer_name customer_phone
  let db1 := res.1
  let customer := res.2
  match db1.employees.find? (fun e => e.id == employee_id) with
  | none => (db1, Except.error ("Employee not found"))
  | some employee =>
    let duration := resolve_duration db1.services service_id
    let end_time := (start_time + duration) % 1440
    match db1.appointments.find?
        (conflicts_with employee_id appointment_date start_time end_time) with
    | some _ => (db1, Except.error ("Time slot not available"))
    | none =>
      let appointment : Appointment := {
        shop_id := employee.shop_id,
        employee_id := employee_id,
        customer_id := customer.id,
        service_id := service_id,
        appointment_date := appointment_date,
        start_time := start_time,
        end_time := end_time,
        status := "scheduled",
        notes := notes }
      ({ db1 with appointments := db1.appointments ++ [appointment] },
        Except.ok appointment)

/-- Result record of `get_next_available_slot` (the `employee_name` key of
the shop-scoped dictionary is not modelled; no claim concerns it). -/
structure NextSlot where
  employee_id : Nat
  date : Nat
  time : Nat
deriving Repr, DecidableEq

/-- The active-employee query of the shop-scoped branch (lines 241-244). -/
def active_employees (db : DB) (shop_id : Nat) : List Employee :=
  db.employees.filter (fun e => e.shop_id == shop_id && e.is_active)

/-- The per-day probe shared by both branches of `get_next_available_slot`
(lines 232-238 and 247-254): the first slot of the employee's availability
for the day, when there is one. -/
def first_slot_probe (db : DB) (eid check_date : Nat) : Option NextSlot :=
  match get_employee_availability db eid check_date with
  | [] => none
  | s :: _ => some { employee_id := eid, date := check_date, time := s.1 }

/-- Translation of `get_next_available_slot` (lines 221-256): scan 30 days starting today;
staff-scoped, return the first day with a non-empty slot list together with
its first slot's start; shop-scoped, additionally scan the shop's active
employees in order within each day; otherwise `none`. -/
def get_next_available_slot (db : DB) (today : Nat)
    (employee_id : Option Nat) (shop_id : Option Nat) : Option NextSlot :=
  (List.range 30).findSome? (fun days_ahead =>
    let check_date := today + days_ahead
    match employee_id with
    | some eid => first_slot_probe db eid check_date
    | none =>
      match shop_id with
      | some sid =>
        (active_employees db sid).findSome? (fun emp =>
          first_slot_probe db emp.id check_date)
      | none => none)

/-- The half-open overlap relation of §4.2 of the specification, as used by
the slot-generation loop (line 112): `[s1,e1)` and `[s2,e2)` overlap unless
`e1 <= s2` or `s1 >= e2`. -/
def overlapsHalfOpen (s1 e1 s2 e2 : Nat) : Prop :=
  ¬ (e1 ≤ s2 ∨ s1 ≥ e2)

instance (s1 e1 s2 e2 : Nat) : Decidable (overlapsHalfOpen s1 e1 s2 e2) := by
  unfold overlapsHalfOpen; infer_instance

/-! ### Concrete stores used by witnesses and counterexamples -/

/-- Employee with a 09:00-18:00 window, working every day except Sunday. -/
def empBug : Employee :=
  { id := 1, shop_id := 1, name := "Mike", working_days := "Mon,Tue,Wed,Thu,Fri,Sat",
    start_time := 540, end_time := 1080, is_active := true }

/-- Store with one employee, one 90-minute service and no bookings yet. -/
def dbBug : DB :=
  { customers := [], next_customer_id := 1, employees := [empBug],
    services := [{ id := 2, duration_minutes := 90 }], appointments := [] }

/-- First booking run on `dbBug`: 10:00 with the default 30-minute duration
on day 10. -/
def bugBook1 : DB × Except String Appointment :=
  book_appointment dbBug 1 "555-0001" "Alice" 10 600 none ""

/-- Second booking run on the store left by the first: 09:45 with the
90-minute service, same employee and day. -/
def bugBook2 : DB × Except String Appointment :=
  book_appointment bugBook1.1 1 "555-0002" "Bob" 10 585 (some 2) ""

/-- Scenario of the duration-driven-conflict example of the spec (§8):
window 09:00-12:00 and an existing commitment 10:00-10:30 on day 12 (a
Friday), plus one 90-minute service on offer. -/
def dbSpec97 : DB :=
  { customers := [], next_customer_id := 1,
    employees := [{ id := 1, shop_id := 1, name := "Mike",
                    working_days := "Mon,Tue,Wed,Thu,Fri,Sat",
                    start_time := 540, end_time := 720, is_active := true }],
    services := [{ id := 5, duration_minutes := 90 }],
    appointments := [{ shop_id := 1, employee_id := 1, customer_id := 1,
                       service_id := none, appointment_date := 12,
                       start_time := 600, end_time := 630,
                       status := "scheduled", notes := "" }] }

/-- Employee of the half-open-boundary example: window 09:00-10:00, working
Monday and Tuesday. -/
def empAvail : Employee :=
  { id := 1, shop_id := 1, name := "Mike", working_days := "Mon,Tue",
    start_time := 540, end_time := 600, is_active := true }

/-- Scenario of the half-open-boundary example of the spec (§8): one
commitment 09:00-09:30 on day 1 (a Monday). -/
def dbAvail : DB :=
  { customers := [], next_customer_id := 1, employees := [empAvail], services := [],
    appointments := [{ shop_id := 1, employee_id := 1, customer_id := 1,
                       service_id := none, appointment_date := 1,
                       start_time := 540, end_time := 570,
                       status := "scheduled", notes := "" }] }

/-- Employee working Tuesday and Wednesday only (spec §8 non-working-day
example). -/
def empTW : Employee :=
  { id := 1, shop_id := 1, name := "Sarah", working_days := "Tue,Wed",
    start_time := 540, end_time := 1080, is_active := true }

/-- Store for the non-working-day example. -/
def dbTW : DB :=
  { customers := [], next_customer_id := 1, employees := [empTW], services := [],
    appointments := [] }

/-- Store with one employee working Mondays and a 90-minute service, no
bookings. -/
def dbPlain : DB :=
  { customers := [], next_customer_id := 1,
    employees := [{ id := 1, shop_id := 1, name := "Mike", working_days := "Mon",
                    start_time := 540, end_time := 1080, is_active := true }],
    services := [{ id := 2, duration_minutes := 90 }], appointments := [] }

/-- The appointment produced by booking 10:00 with no service on `dbPlain`. -/
def apptDefault : Appointment :=
  { shop_id := 1, employee_id := 1, customer_id := 1, service_id := none,
    appointment_date := 1, start_time := 600, end_time := 630,
    status := "scheduled", notes := "" }

/-- The appointment produced by booking 23:00 with the 90-minute service on
`dbPlain`: its end time wraps past midnight to 00:30. -/
def apptWrap : Appointment :=
  { shop_id := 1, employee_id := 1, customer_id := 1, service_id := some 2,
    appointment_date := 1, start_time := 1380, end_time := 30,
    status := "scheduled", notes := "" }

/-! ### Helper lemmas -/

/-- Negating the half-open overlap relation gives exactly the disjunction
used by the slot-generation loop. -/
theorem not_overlapsHalfOpen_iff {s1 e1 s2 e2 : Nat} :
    ¬ overlapsHalfOpen s1 e1 s2 e2 ↔ (e1 ≤ s2 ∨ e2 ≤ s1) := by
  unfold overlapsHalfOpen
  omega

/-- The customer upsert touches only the customer table. -/
theorem register_customer_employees (db : DB) (n p : String) :
    (register_customer db n p).1.employees = db.employees := by
  unfold register_customer
  cases db.customers.find? (fun c => c.phone == p) <;> rfl

/-- The customer upsert touches only the customer table. -/
theorem register_customer_services (db : DB) (n p : String) :
    (register_customer db n p).1.services = db.services := by
  unfold register_customer
  cases db.customers.find? (fun c => c.phone == p) <;> rfl

/-- The customer upsert touches only the customer table. -/
theorem register_customer_appointments (db : DB) (n p : String) :
    (register_customer db n p).1.appointments = db.appointments := by
  unfold register_customer
  cases db.customers.find? (fun c => c.phone == p) <;> rfl

/-- Unfolding of the slot-availability test into a universally quantified
statement over the appointment list. -/
theorem slotFree_iff {current slotEnd : Nat} {appts : List Appointment} :
    slotFree current slotEnd appts = true ↔
      ∀ a ∈ appts, slotEnd ≤ a.start_time ∨ a.end_time ≤ current := by
  simp [slotFree, List.all_eq_true]

/-- Membership characterisation of the fuelled slot loop: with enough fuel,
the produced slots are exactly the free 30-minute steps of the window. -/
theorem mem_slotLoopFuel {appts : List Appointment} {s e : Nat} :
    ∀ (fuel current end_dt : Nat), end_dt + 1 ≤ current + fuel →
      ((s, e) ∈ slotLoopFuel fuel current end_dt appts ↔
        current ≤ s ∧ 30 ∣ (s - current) ∧ e = s + 30 ∧ s + 30 ≤ end_dt ∧
          slotFree s (s + 30) appts = true) := by
  intro fuel
  induction fuel with
  | zero =>
    intro current end_dt h
    constructor
    · intro hmem
      simp [slotLoopFuel] at hmem
    · rintro ⟨h1, -, -, h4, -⟩
      exfalso; omega
  | succ n ih =>
    intro current end_dt h
    by_cases hc : current + 30 ≤ end_dt
    · rw [show slotLoopFuel (n + 1) current end_dt appts =
          (if slotFree current (current + 30) appts then [(current, current + 30)] else []) ++
            slotLoopFuel n (current + 30) end_dt appts from by
          simp [slotLoopFuel, hc]]
      rw [List.mem_append, ih (current + 30) end_dt (by omega)]
      by_cases hf : slotFree current (current + 30) appts = true
      · simp only [if_pos hf, List.mem_singleton, Prod.mk.injEq]
        constructor
        · rintro (⟨rfl, rfl⟩ | ⟨h1, h2, h3, h4, h5⟩)
          · exact ⟨Nat.le_refl _, by omega, rfl, hc, hf⟩
          · exact ⟨by omega, by omega, h3, h4, h5⟩
        · rintro ⟨h1, h2, h3, h4, h5⟩
          by_cases hs : s = current
          · subst hs
            exact Or.inl ⟨rfl, by omega⟩
          · exact Or.inr ⟨by omega, by omega, h3, h4, h5⟩
      · simp only [if_neg hf, List.not_mem_nil, false_or]
        constructor
        · rintro ⟨h1, h2, h3, h4, h5⟩
          exact ⟨by omega, by omega, h3, h4, h5⟩
        · rintro ⟨h1, h2, h3, h4, h5⟩
          have hs : s ≠ current := by
            intro heq
            rw [heq] at h5
            exact hf h5
          exact ⟨by omega, by omega, h3, h4, h5⟩
    · rw [show slotLoopFuel (n + 1) current end_dt appts = [] from by
          simp [slotLoopFuel, hc]]
      constructor
      · intro hmem
        simp at hmem
      · rintro ⟨h1, -, -, h4, -⟩
        exfalso; omega

/-- Membership characterisation of the generated slot list. -/
theorem mem_time_slots {start_t end_dt : Nat} {appts : List Appointment} {s e : Nat} :
    (s, e) ∈ time_slots start_t end_dt appts ↔
      start_t ≤ s ∧ 30 ∣ (s - start_t) ∧ e = s + 30 ∧ s + 30 ≤ end_dt ∧
        slotFree s (s + 30) appts = true := by
  rw [time_slots]
  exact mem_slotLoopFuel (end_dt + 1 - start_t) start_t end_dt (by omega)

/-- Every slot the loop produces starts no earlier than the cursor. -/
theorem slotLoopFuel_start_le {appts : List Appointment} {p : Nat × Nat} :
    ∀ (fuel current end_dt : Nat),
      p ∈ slotLoopFuel fuel current end_dt appts → current ≤ p.1 := by
  intro fuel
  induction fuel with
  | zero =>
    intro current end_dt hmem
    simp [slotLoopFuel] at hmem
  | succ n ih =>
    intro current end_dt hmem
    by_cases hc : current + 30 ≤ end_dt
    · rw [show slotLoopFuel (n + 1) current end_dt appts =
          (if slotFree current (current + 30) appts then [(current, current + 30)] else []) ++
            slotLoopFuel n (current + 30) end_dt appts from by
          simp [slotLoopFuel, hc]] at hmem
      rcases List.mem_append.mp hmem with hmem | hmem
      · by_cases hf : slotFree current (current + 30) appts = true
        · rw [if_pos hf] at hmem
          simp only [List.mem_singleton] at hmem
          subst hmem
          exact Nat.le_refl _
        · rw [if_neg hf] at hmem
          simp at hmem
      · have := ih (current + 30) end_dt hmem
        omega
    · rw [show slotLoopFuel (n + 1) current end_dt appts = [] from by
          simp [slotLoopFuel, hc]] at hmem
      simp at hmem

/-- The head of the slot list is strictly earlier than every later slot. -/
theorem slotLoopFuel_head_lt {appts : List Appointment} :
    ∀ (fuel current end_dt : Nat) {s0 e0 : Nat} {rest : List (Nat × Nat)},
      slotLoopFuel fuel current end_dt appts = (s0, e0) :: rest →
      ∀ p ∈ rest, s0 < p.1 := by
  intro fuel
  induction fuel with
  | zero =>
    intro current end_dt s0 e0 rest h
    simp [slotLoopFuel] at h
  | succ n ih =>
    intro current end_dt s0 e0 rest h
    by_cases hc : current + 30 ≤ end_dt
    · rw [show slotLoopFuel (n + 1) current end_dt appts =
          (if slotFree current (current + 30) appts then [(current, current + 30)] else []) ++
            slotLoopFuel n (current + 30) end_dt appts from by
          simp [slotLoopFuel, hc]] at h
      by_cases hf : slotFree current (current + 30) appts = true
      · rw [if_pos hf] at h
        simp only [List.cons_append, List.nil_append, List.cons.injEq, Prod.mk.injEq] at h
        obtain ⟨⟨h1, h2⟩, hrest⟩ := h
        intro p hp
        rw [← hrest] at hp
        have hle := slotLoopFuel_start_le n (current + 30) end_dt hp
        omega
      · rw [if_neg hf] at h
        simp only [List.nil_append] at h
        exact ih (current + 30) end_dt h
    · rw [show slotLoopFuel (n + 1) current end_dt appts = [] from by
          simp [slotLoopFuel, hc]] at h
      simp at h

/-- Reduction of the availability computation when the employee resolves
and the date is a working day. -/
theorem get_employee_availability_eq (db : DB) (eid d : Nat) (emp : Employee)
    (hemp : db.employees.find? (fun e => e.id == eid) = some emp)
    (hday : (splitComma emp.working_days).contains (dayAbbrev d) = true) :
    get_employee_availability db eid d =
      time_slots emp.start_time emp.end_time
        (db.appointments.filter (fun a =>
          a.employee_id == eid && a.appointment_date == d &&
            a.status != "cancelled")) := by
  unfold get_employee_availability
  rw [hemp]
  simp only [hday, if_true]

/-- Membership in the non-cancelled same-employee same-date filter. -/
theorem mem_relevant_filter {db : DB} {eid d : Nat} {a : Appointment} :
    a ∈ db.appointments.filter (fun a =>
        a.employee_id == eid && a.appointment_date == d &&
          a.status != "cancelled") ↔
      a ∈ db.appointments ∧ a.employee_id = eid ∧ a.appointment_date = d ∧
        a.status ≠ "cancelled" := by
  rw [List.mem_filter]
  simp [Bool.and_eq_true, beq_iff_eq, bne_iff_ne, and_assoc]

/-- The head of a non-empty availability list is strictly earlier than
every later element. -/
theorem get_employee_availability_head_lt {db : DB} {eid d s0 e0 : Nat}
    {rest : List (Nat × Nat)}
    (h : get_employee_availability db eid d = (s0, e0) :: rest) :
    ∀ p ∈ rest, s0 < p.1 := by
  cases hemp : db.employees.find? (fun e => e.id == eid) with
  | none =>
    unfold get_employee_availability at h
    rw [hemp] at h
    simp at h
  | some emp =>
    by_cases hday : (splitComma emp.working_days).contains (dayAbbrev d) = true
    · rw [get_employee_availability_eq db eid d emp hemp hday, time_slots] at h
      exact slotLoopFuel_head_lt _ _ _ h
    · unfold get_employee_availability at h
      rw [hemp] at h
      simp only [Bool.not_eq_true] at hday
      simp at hday
      simp [hday] at h

/-- Characterisation of a failing per-day probe. -/
theorem first_slot_probe_eq_none {db : DB} {eid d : Nat} :
    first_slot_probe db eid d = none ↔ get_employee_availability db eid d = [] := by
  unfold first_slot_probe
  cases h : get_employee_availability db eid d <;> simp

/-- Characterisation of a successful per-day probe. -/
theorem first_slot_probe_eq_some {db : DB} {eid d : Nat} {r : NextSlot} :
    first_slot_probe db eid d = some r ↔
      r.employee_id = eid ∧ r.date = d ∧
        ∃ e0 rest, get_employee_availability db eid d = (r.time, e0) :: rest := by
  unfold first_slot_probe
  cases h : get_employee_availability db eid d with
  | nil => simp
  | cons s rest =>
    simp only [Option.some.injEq]
    constructor
    · rintro rfl
      exact ⟨rfl, rfl, s.2, rest, rfl⟩
    · rintro ⟨h1, h2, e0, rest2, heq⟩
      injection heq with heq1 heq2
      subst heq1
      cases r with
      | mk rid rdate rtime =>
        obtain rfl : rid = eid := h1
        obtain rfl : rdate = d := h2
        rfl

/-- A `findSome?` over `List.range n` succeeds exactly at the least index
whose probe succeeds. -/
theorem range_findSome?_eq_some {β : Type} {f : Nat → Option β} :
    ∀ (n : Nat) (b : β), (List.range n).findSome? f = some b ↔
      ∃ k, k < n ∧ f k = some b ∧ ∀ j, j < k → f j = none := by
  intro n
  induction n with
  | zero => intro b; simp
  | succ m ih =>
    intro b
    rw [List.range_succ, List.findSome?_append]
    have hsingle : ([m].findSome? f) = f m := by
      cases hfm : f m <;> simp [List.findSome?_cons, hfm]
    cases hm : (List.range m).findSome? f with
    | some c =>
      rw [Option.or_some]
      obtain ⟨k, hk, hfk, hmin⟩ := (ih c).mp hm
      constructor
      · intro hcb
        refine ⟨k, by omega, ?_, hmin⟩
        rw [hfk]
        exact hcb
      · rintro ⟨k2, hk2, hfk2, hmin2⟩
        have hkk : k = k2 := by
          rcases Nat.lt_trichotomy k k2 with hlt | heq | hgt
          · rw [hmin2 k hlt] at hfk
            exact absurd hfk (by simp)
          · exact heq
          · rw [hmin k2 hgt] at hfk2
            exact absurd hfk2 (by simp)
        rw [hkk] at hfk
        rw [← hfk]
        exact hfk2
    | none =>
      rw [Option.none_or, hsingle]
      have hall : ∀ j, j < m → f j = none := by
        intro j hj
        exact List.findSome?_eq_none_iff.mp hm j (List.mem_range.mpr hj)
      constructor
      · intro hfmb
        exact ⟨m, by omega, hfmb, hall⟩
      · rintro ⟨k, hk, hfk, hmin⟩
        rcases Nat.lt_or_ge k m with hlt | hge
        · rw [hall k hlt] at hfk
          exact absurd hfk (by simp)
        · have : k = m := by omega
          rw [← this]
          exact hfk

/-- A `findSome?` over `List.range n` fails exactly when every probe fails. -/
theorem range_findSome?_eq_none {β : Type} {f : Nat → Option β} {n : Nat} :
    (List.range n).findSome? f = none ↔ ∀ k, k < n → f k = none := by
  simp [List.findSome?_eq_none_iff, List.mem_range]

/-- Field values of the appointment a successful booking constructs
(booking_manager.py lines 172-182). -/
theorem book_appointment_ok_fields (db : DB) (eid : Nat) (phone name : String)
    (d st : Nat) (sid : Option Nat) (notes : String) (appt : Appointment)
    (h : (book_appointment db eid phone name d st sid notes).2 = Except.ok appt) :
    appt.status = "scheduled" ∧ appt.start_time = st ∧
      appt.end_time = (st + resolve_duration db.services sid) % 1440 ∧
      appt.appointment_date = d ∧ appt.employee_id = eid ∧ appt.service_id = sid := by
  have hsvc := register_customer_services db name phone
  unfold book_appointment at h
  cases hemp : (register_customer db name phone).1.employees.find? (fun e => e.id == eid) with
  | none =>
    simp only [hemp] at h
    simp at h
  | some employee =>
    simp only [hemp] at h
    cases hconf : (register_customer db name phone).1.appointments.find?
        (conflicts_with eid d st
          ((st + resolve_duration (register_customer db name phone).1.services sid) % 1440)) with
    | some c =>
      simp only [hconf] at h
      simp at h
    | none =>
      simp only [hconf] at h
      simp only [Except.ok.injEq] at h
      subst h
      rw [hsvc]
      exact ⟨rfl, rfl, rfl, rfl, rfl, rfl⟩

/-! ### Claims -/

/-- Claim C1 (refuted; code bug): the spec asserts that the set of
non-cancelled commitments accepted by `book_appointment` for one staff
member and date is always pairwise non-overlapping under half-open
semantics.  The code violates this: starting from the empty store
`dbBug`, the booking 10:00-10:30 and then the booking 09:45 with a
90-minute service (09:45-11:15) are both accepted, and the two stored
commitments overlap.  The conflict query (lines 159-164) never checks for
an existing commitment lying strictly inside the candidate interval. -/
theorem double_booking_accepted :
    bugBook1.2.toOption.map (fun a => (a.start_time, a.end_time)) = some (600, 630) ∧
      bugBook2.2.toOption.map (fun a => (a.start_time, a.end_time)) = some (585, 675) ∧
      bugBook2.1.appointments.map (fun a =>
          (a.employee_id, a.appointment_date, a.start_time, a.end_time, a.status)) =
        [(1, 10, 600, 630, "scheduled"), (1, 10, 585, 675, "scheduled")] ∧
      overlapsHalfOpen 600 630 585 675 :=
  ⟨rfl, rfl, rfl, by decide⟩

/-- Claim C2 (refuted; code bug): the spec asserts `book_appointment` fails
with SlotUnavailable if and only if some existing non-cancelled commitment
overlaps the candidate interval under half-open semantics.  The
only-if example of the claim does hold (third conjunct shows the spec's own
09:45/30-minute example is rejected... see first conjunct), but the "if"
direction fails: on `dbSpec97` (existing commitment 10:00-10:30) the
candidate 09:45-11:15 (90-minute service) overlaps yet is accepted,
because neither disjunct of the query matches when the existing commitment
lies strictly inside the candidate span. -/
theorem conflict_check_misses_containment :
    ((book_appointment dbSpec97 1 "555-9" "Cy" 12 585 none "").2 =
        Except.error ("Time slot not available")) ∧
      overlapsHalfOpen 585 675 600 630 ∧
      ((book_appointment dbSpec97 1 "555-9" "Cy" 12 585 (some 5) "").2.toOption.map
          (fun a => (a.start_time, a.end_time, a.status)) =
        some (585, 675, "scheduled")) :=
  ⟨rfl, by decide, rfl⟩

/-- Claim C3, counterexample: the claim says a failed booking changes no
state at all, including customer records.  On `dbSpec97` a booking that is
rejected with SlotUnavailable has nevertheless inserted a new customer row
for the previously unknown phone number, because the upsert runs and
commits before the conflict check. -/
theorem booking_failure_still_creates_customer :
    ((book_appointment dbSpec97 1 "555-new" "Dana" 12 600 none "").2 =
        Except.error ("Time slot not available")) ∧
      dbSpec97.customers = [] ∧
      (book_appointment dbSpec97 1 "555-new" "Dana" 12 600 none "").1.customers =
        [{ id := 1, name := "Dana", phone := "555-new" }] :=
  ⟨rfl, rfl, rfl⟩

/-- Claim C3, amended: when `book_appointment` fails (slot unavailable or
staff not found), no commitment is persisted - the appointment table is
unchanged - but the customer upsert has already run and its effect
persists. -/
theorem booking_failure_preserves_appointments (db : DB) (eid : Nat)
    (phone name : String) (d st : Nat) (sid : Option Nat) (notes msg : String)
    (h : (book_appointment db eid phone name d st sid notes).2 = Except.error msg) :
    (book_appointment db eid phone name d st sid notes).1.appointments =
      db.appointments := by
  have happ := register_customer_appointments db name phone
  unfold book_appointment at h ⊢
  cases hemp : (register_customer db name phone).1.employees.find? (fun e => e.id == eid) with
  | none =>
    simp only [hemp]
    exact happ
  | some employee =>
    simp only [hemp] at h ⊢
    cases hconf : (register_customer db name phone).1.appointments.find?
        (conflicts_with eid d st
          ((st + resolve_duration (register_customer db name phone).1.services sid) % 1440)) with
    | some c =>
      simp only [hconf]
      exact happ
    | none =>
      simp only [hconf] at h
      simp at h

/-- Witness for the amended C3 theorem at the concrete rejected booking. -/
theorem booking_failure_preserves_appointments_witness :
    (book_appointment dbSpec97 1 "555-new" "Dana" 12 600 none "").1.appointments =
      dbSpec97.appointments :=
  booking_failure_preserves_appointments dbSpec97 1 "555-new" "Dana" 12 600 none ""
    "Time slot not available" (by rfl)

/-- Claim C4: for a resolved employee on a working day, the availability
list contains exactly the 30-minute candidate slots stepped from the window
start that fit in the window and overlap no non-cancelled commitment of
that employee and date under half-open semantics. -/
theorem availability_slots_characterization (db : DB) (eid d : Nat) (emp : Employee)
    (hemp : db.employees.find? (fun e => e.id == eid) = some emp)
    (hday : (splitComma emp.working_days).contains (dayAbbrev d) = true)
    (s e : Nat) :
    (s, e) ∈ get_employee_availability db eid d ↔
      e = s + 30 ∧ (∃ k, s = emp.start_time + 30 * k) ∧ s + 30 ≤ emp.end_time ∧
        ∀ a ∈ db.appointments, a.employee_id = eid → a.appointment_date = d →
          a.status ≠ "cancelled" →
            ¬ overlapsHalfOpen s (s + 30) a.start_time a.end_time := by
  rw [get_employee_availability_eq db eid d emp hemp hday, mem_time_slots, slotFree_iff]
  constructor
  · rintro ⟨h1, h2, h3, h4, h5⟩
    refine ⟨h3, ?_, h4, ?_⟩
    · obtain ⟨k, hk⟩ := h2
      exact ⟨k, by omega⟩
    · intro a ha haid hadate hastatus
      have hmem := mem_relevant_filter.mpr ⟨ha, haid, hadate, hastatus⟩
      exact not_overlapsHalfOpen_iff.mpr (h5 a hmem)
  · rintro ⟨h1, ⟨k, hk⟩, h3, h4⟩
    refine ⟨by omega, ⟨k, by omega⟩, h1, h3, ?_⟩
    intro a ha
    obtain ⟨ha0, haid, hadate, hastatus⟩ := mem_relevant_filter.mp ha
    exact not_overlapsHalfOpen_iff.mp (h4 a ha0 haid hadate hastatus)

/-- Witness for C4 at the boundary example of the spec: window 09:00-10:00
with one commitment 09:00-09:30; the slot 09:30-10:00 that touches the
commitment boundary is offered and the blocked slot 09:00-09:30 is not. -/
theorem availability_boundary_witness :
    (570, 600) ∈ get_employee_availability dbAvail 1 1 ∧
      ¬ ((540, 570) ∈ get_employee_availability dbAvail 1 1) := by
  constructor
  · exact (availability_slots_characterization dbAvail 1 1 empAvail rfl rfl 570 600).mpr
      ⟨rfl, ⟨1, rfl⟩, by decide, by decide⟩
  · decide

/-- Claim C5: the next-slot search scans the 30 dates from today upward in
order; staff-scoped it returns the earliest slot of the first date with a
non-empty slot list; shop-scoped it returns the first (staff, date) pair
with a non-empty slot list, scanning active staff in stored order within
each date; and it returns `none` exactly when every probe in the horizon is
empty. -/
theorem next_available_slot_spec :
    (∀ (db : DB) (today eid : Nat) (sid : Option Nat) (r : NextSlot),
        get_next_available_slot db today (some eid) sid = some r →
          r.employee_id = eid ∧
          ∃ k, k < 30 ∧ r.date = today + k ∧
            (∀ j, j < k → get_employee_availability db eid (today + j) = []) ∧
            (∃ e0 rest, get_employee_availability db eid r.date = (r.time, e0) :: rest) ∧
            (∀ p ∈ get_employee_availability db eid r.date, r.time ≤ p.1)) ∧
    (∀ (db : DB) (today sid : Nat) (r : NextSlot),
        get_next_available_slot db today none (some sid) = some r →
          ∃ k, k < 30 ∧ r.date = today + k ∧
            (∀ j, j < k → ∀ emp ∈ active_employees db sid,
                get_employee_availability db emp.id (today + j) = []) ∧
            ∃ pre emp post, active_employees db sid = pre ++ emp :: post ∧
              r.employee_id = emp.id ∧
              (∀ e2 ∈ pre, get_employee_availability db e2.id r.date = []) ∧
              ∃ e0 rest, get_employee_availability db emp.id r.date =
                (r.time, e0) :: rest) ∧
    (∀ (db : DB) (today eid : Nat) (sid : Option Nat),
        get_next_available_slot db today (some eid) sid = none ↔
          ∀ k, k < 30 → get_employee_availability db eid (today + k) = []) ∧
    (∀ (db : DB) (today sid : Nat),
        get_next_available_slot db today none (some sid) = none ↔
          ∀ k, k < 30 → ∀ emp ∈ active_employees db sid,
            get_employee_availability db emp.id (today + k) = []) := by
  refine ⟨?_, ?_, ?_, ?_⟩
  · intro db today eid sid r hr
    rw [show get_next_available_slot db today (some eid) sid =
        (List.range 30).findSome? (fun k => first_slot_probe db eid (today + k))
        from rfl] at hr
    obtain ⟨k, hk, hfk, hmin⟩ := (range_findSome?_eq_some 30 r).mp hr
    obtain ⟨h1, h2, e0, rest, heq⟩ := first_slot_probe_eq_some.mp hfk
    refine ⟨h1, k, hk, h2, ?_, ?_, ?_⟩
    · intro j hj
      exact first_slot_probe_eq_none.mp (hmin j hj)
    · rw [h2]
      exact ⟨e0, rest, heq⟩
    · rw [h2]
      intro p hp
      rw [heq] at hp
      rcases List.mem_cons.mp hp with rfl | hp2
      · exact Nat.le_refl _
      · exact Nat.le_of_lt (get_employee_availability_head_lt heq p hp2)
  · intro db today sid r hr
    rw [show get_next_available_slot db today none (some sid) =
        (List.range 30).findSome? (fun k =>
          (active_employees db sid).findSome?
            (fun emp => first_slot_probe db emp.id (today + k))) from rfl] at hr
    obtain ⟨k, hk, hfk, hmin⟩ := (range_findSome?_eq_some 30 r).mp hr
    obtain ⟨pre, emp, post, hsplit, hempk, hpre⟩ := List.findSome?_eq_some_iff.mp hfk
    obtain ⟨h1, h2, e0, rest, heq⟩ := first_slot_probe_eq_some.mp hempk
    refine ⟨k, hk, h2, ?_, pre, emp, post, hsplit, h1, ?_, ?_⟩
    · intro j hj emp2 hmem2
      exact first_slot_probe_eq_none.mp
        (List.findSome?_eq_none_iff.mp (hmin j hj) emp2 hmem2)
    · intro e2 he2
      rw [h2]
      exact first_slot_probe_eq_none.mp (hpre e2 he2)
    · rw [h2]
      exact ⟨e0, rest, heq⟩
  · intro db today eid sid
    rw [show get_next_available_slot db today (some eid) sid =
        (List.range 30).findSome? (fun k => first_slot_probe db eid (today + k))
        from rfl]
    rw [range_findSome?_eq_none]
    constructor
    · intro h k hk
      exact first_slot_probe_eq_none.mp (h k hk)
    · intro h k hk
      exact first_slot_probe_eq_none.mpr (h k hk)
  · intro db today sid
    rw [show get_next_available_slot db today none (some sid) =
        (List.range 30).findSome? (fun k =>
          (active_employees db sid).findSome?
            (fun emp => first_slot_probe db emp.id (today + k))) from rfl]
    rw [range_findSome?_eq_none]
    constructor
    · intro h k hk emp hmem
      exact first_slot_probe_eq_none.mp
        (List.findSome?_eq_none_iff.mp (h k hk) emp hmem)
    · intro h k hk
      exact List.findSome?_eq_none_iff.mpr (fun emp hmem =>
        first_slot_probe_eq_none.mpr (h k hk emp hmem))

/-- Witness for C5: the staff-scoped conclusion instantiated on the
boundary store, where the search run finds the slot 09:30 on the first
scanned day. -/
theorem next_available_slot_witness :
    (⟨1, 1, 570⟩ : NextSlot).employee_id = 1 ∧
      ∃ k, k < 30 ∧ (⟨1, 1, 570⟩ : NextSlot).date = 1 + k ∧
        (∀ j, j < k → get_employee_availability dbAvail 1 (1 + j) = []) ∧
        (∃ e0 rest, get_employee_availability dbAvail 1 (⟨1, 1, 570⟩ : NextSlot).date =
          ((⟨1, 1, 570⟩ : NextSlot).time, e0) :: rest) ∧
        (∀ p ∈ get_employee_availability dbAvail 1 (⟨1, 1, 570⟩ : NextSlot).date,
          (⟨1, 1, 570⟩ : NextSlot).time ≤ p.1) :=
  next_available_slot_spec.1 dbAvail 1 1 none ⟨1, 1, 570⟩ (by rfl)

/-- Claim C6: a successful booking persists a commitment with status
scheduled whose end time is the start plus the resolved duration (as a time
of day), where the duration comes from the service lookup and defaults to
30 minutes when no service id is given or the lookup misses. -/
theorem booking_success_scheduled_and_duration (db : DB) (eid : Nat)
    (phone name : String) (d st : Nat) (sid : Option Nat) (notes : String)
    (appt : Appointment)
    (h : (book_appointment db eid phone name d st sid notes).2 = Except.ok appt) :
    appt.status = "scheduled" ∧ appt.start_time = st ∧
      appt.end_time = (st + resolve_duration db.services sid) % 1440 ∧
      (st + resolve_duration db.services sid < 1440 →
        appt.end_time = st + resolve_duration db.services sid) ∧
      resolve_duration db.services none = 30 ∧
      (∀ s2, db.services.find? (fun sv => sv.id == s2) = none →
        resolve_duration db.services (some s2) = 30) := by
  obtain ⟨h1, h2, h3, -, -, -⟩ :=
    book_appointment_ok_fields db eid phone name d st sid notes appt h
  refine ⟨h1, h2, h3, ?_, rfl, ?_⟩
  · intro hlt
    rw [h3]
    exact Nat.mod_eq_of_lt hlt
  · intro s2 hs2
    simp [resolve_duration, hs2]

/-- Witness for C6 at a concrete default-duration booking on `dbPlain`. -/
theorem booking_success_witness :
    apptDefault.status = "scheduled" ∧ apptDefault.start_time = 600 ∧
      apptDefault.end_time = (600 + resolve_duration dbPlain.services none) % 1440 ∧
      (600 + resolve_duration dbPlain.services none < 1440 →
        apptDefault.end_time = 600 + resolve_duration dbPlain.services none) ∧
      resolve_duration dbPlain.services none = 30 ∧
      (∀ s2, dbPlain.services.find? (fun sv => sv.id == s2) = none →
        resolve_duration dbPlain.services (some s2) = 30) :=
  booking_success_scheduled_and_duration dbPlain 1 "555-1" "Al" 1 600 none ""
    apptDefault (by rfl)

/-- Claim C7: when the date's weekday abbreviation is not among the
employee's comma-separated working days, the availability computation
returns the empty list rather than failing, whatever the window times. -/
theorem availability_nonworking_day_empty (db : DB) (eid d : Nat) (emp : Employee)
    (hemp : db.employees.find? (fun e => e.id == eid) = some emp)
    (hday : (splitComma emp.working_days).contains (dayAbbrev d) = false) :
    get_employee_availability db eid d = [] := by
  unfold get_employee_availability
  rw [hemp]
  simp at hday
  simp [hday]

/-- Witness for C7: the Tue and Wed employee queried on a Monday. -/
theorem nonworking_day_witness : get_employee_availability dbTW 1 1 = [] :=
  availability_nonworking_day_empty dbTW 1 1 empTW (by rfl) (by rfl)

/-- Claim C8, counterexample: the claim says every operation referencing an
unresolved staff identifier fails with StaffNotFound, booking and
availability alike.  The availability operation does not fail: with no
employee of id 99 in the store it returns the ordinary empty list (its
return type has no error channel at all). -/
theorem availability_missing_staff_not_error :
    dbSpec97.employees.find? (fun e => e.id == 99) = none ∧
      get_employee_availability dbSpec97 99 12 = [] :=
  ⟨rfl, rfl⟩

/-- Claim C8, amended: when the staff identifier does not resolve, booking
fails with the staff-not-found error, while the availability query returns
an empty slot list instead of failing. -/
theorem staff_not_found_behavior (db : DB) (eid d : Nat) (phone name : String)
    (st : Nat) (sid : Option Nat) (notes : String)
    (h : db.employees.find? (fun e => e.id == eid) = none) :
    (book_appointment db eid phone name d st sid notes).2 =
        Except.error ("Employee not found") ∧
      get_employee_availability db eid d = [] := by
  constructor
  · have hemp : (register_customer db name phone).1.employees.find?
        (fun e => e.id == eid) = none := by
      rw [register_customer_employees]
      exact h
    unfold book_appointment
    simp only [hemp]
  · unfold get_employee_availability
    rw [h]

/-- Witness for the amended C8 theorem at staff id 99 on `dbSpec97`. -/
theorem staff_not_found_witness :
    (book_appointment dbSpec97 99 "555-7" "Eve" 12 600 none "").2 =
        Except.error ("Employee not found") ∧
      get_employee_availability dbSpec97 99 12 = [] :=
  staff_not_found_behavior dbSpec97 99 12 "555-7" "Eve" 600 none "" (by rfl)

/-- Claim C9: the customer upsert is idempotent keyed on the phone number:
registering a second time with the same phone and any name (including
different casing) returns exactly the state and row of the first
registration, so the same customer id is resolved and no second row is
created. -/
theorem register_customer_idempotent (db : DB) (n1 p n2 : String) :
    register_customer (register_customer db n1 p).1 n2 p = register_customer db n1 p := by
  cases hfind : db.customers.find? (fun c => c.phone == p) with
  | some c =>
    have h1 : register_customer db n1 p = (db, c) := by
      unfold register_customer
      rw [hfind]
    rw [h1]
    unfold register_customer
    rw [hfind]
  | none =>
    have h1 : register_customer db n1 p =
        ({ db with
            customers := db.customers ++
              [({ id := db.next_customer_id, name := n1, phone := p } : Customer)],
            next_customer_id := db.next_customer_id + 1 },
          { id := db.next_customer_id, name := n1, phone := p }) := by
      unfold register_customer
      rw [hfind]
    rw [h1]
    unfold register_customer
    have h2 : ({ db with
        customers := db.customers ++
          [({ id := db.next_customer_id, name := n1, phone := p } : Customer)],
        next_customer_id := db.next_customer_id + 1 } : DB).customers.find?
          (fun c => c.phone == p) =
        some ({ id := db.next_customer_id, name := n1, phone := p } : Customer) := by
      show (db.customers ++
          [({ id := db.next_customer_id, name := n1, phone := p } : Customer)]).find?
          (fun c => c.phone == p) =
        some ({ id := db.next_customer_id, name := n1, phone := p } : Customer)
      rw [List.find?_append, hfind]
      simp
    rw [h2]

/-- Claim C10: the stored end time is (start + duration) modulo 24 hours;
when the sum crosses midnight the persisted end time is a time of day
strictly earlier than the start time, and the booking is not rejected for
it. -/
theorem booking_end_time_wraps_midnight (db : DB) (eid : Nat)
    (phone name : String) (d st : Nat) (sid : Option Nat) (notes : String)
    (appt : Appointment)
    (h : (book_appointment db eid phone name d st sid notes).2 = Except.ok appt)
    (hdur : resolve_duration db.services sid < 1440)
    (hcross : 1440 < st + resolve_duration db.services sid) :
    appt.end_time = (st + resolve_duration db.services sid) % 1440 ∧
      appt.end_time < appt.start_time := by
  obtain ⟨-, h2, h3, -, -, -⟩ :=
    book_appointment_ok_fields db eid phone name d st sid notes appt h
  refine ⟨h3, ?_⟩
  rw [h2, h3]
  omega

/-- Witness for C10: the accepted 23:00 booking of the 90-minute service,
whose stored end time is 00:30. -/
theorem booking_wrap_witness :
    apptWrap.end_time = (1380 + resolve_duration dbPlain.services (some 2)) % 1440 ∧
      apptWrap.end_time < apptWrap.start_time :=
  booking_end_time_wraps_midnight dbPlain 1 "555-2" "Bo" 1 1380 (some 2) "" apptWrap
    (by rfl) (by decide) (by decide)

end BarberShop
